import Mathlib

/-!
Verification of the CrossroadTrafficMonitoring component
(`src/CrossroadTrafficMonitoring.{hpp,cpp}`).

The C++ class is embedded shallowly:

* the fixed pool `Vehicle vehiclePool[MAX_VEHICLES]` becomes a function
  `pool : Nat → Vehicle` indexed by slot number (the slot's address);
* the intrusive free list threaded through `Vehicle::nextFree` becomes the
  list of slot indices `freeList`;
* the four Boost.Intrusive lists (`bicycleList`, `carList`, `scooterList`,
  `alphabeticalList`) become lists of slot indices; an in-place field update
  of a pooled `Vehicle` is a pointwise update of `pool`, visible through
  every list that holds the index, exactly as a single intrusive node is
  visible from both of its hooks;
* `std::chrono::steady_clock::time_point` becomes a `Nat` (milliseconds);
  every member function that calls `steady_clock::now()` takes the current
  time `now` as an explicit argument;
* `std::string` identifiers become Lean `String`s; the C++ `operator<` is
  lexicographic comparison, matched by the lexicographic `<` on `String`.

The default-constructed `Vehicle` has `id == ""` and `count == 0`; its
`category` field is value-initialized only on allocation (`Vehicle::reset`
sets it to `Bicycle`), so the model uses `Bicycle` for the initial pool
contents as well — no code path reads a category before it is set.
-/

namespace CTM

/-- The three vehicle categories (`enum class VehicleCategory`). -/
inductive VehicleCategory where
  | Bicycle
  | Car
  | Scooter
deriving DecidableEq

/-- Category names as printed by `ToString(VehicleCategory)`. -/
def categoryName : VehicleCategory → String
  | .Bicycle => "Bicycle"
  | .Car => "Car"
  | .Scooter => "Scooter"

/-- The payload of one pool slot (class `Vehicle`, minus the intrusive
hooks and the `nextFree` pointer, which are represented by list
membership in the `Monitor` structure). -/
structure Vehicle where
  category : VehicleCategory
  id : String
  count : Nat
deriving DecidableEq

/-- The effect of `Vehicle::reset()`: category back to `Bicycle`,
identifier cleared, count zeroed. -/
def Vehicle.reset (_ : Vehicle) : Vehicle :=
  { category := VehicleCategory.Bicycle, id := "", count := 0 }

/-- The four monitor states (`enum class State`). -/
inductive State where
  | Init
  | Active
  | Error
  | Stopped
deriving DecidableEq

/-- The pool capacity `MAX_VEHICLES`. -/
def MAX_VEHICLES : Nat := 1000

/-- The whole mutable state of one `CrossroadTrafficMonitoring` instance.
Slots are addressed by their index in `vehiclePool`. -/
structure Monitor where
  pool : Nat → Vehicle
  freeList : List Nat
  bicycleList : List Nat
  carList : List Nat
  scooterList : List Nat
  alphabeticalList : List Nat
  state : State
  errorCount : Nat
  period : Nat
  nextResetTime : Nat

/-- The member function `scheduleNextReset()`:
`nextResetTime = steady_clock::now() + period`. -/
def scheduleNextReset (now : Nat) (m : Monitor) : Monitor :=
  { m with nextResetTime := now + m.period }

/-- The constructor: `InitializeFreeList()` links the whole pool
(`vehiclePool[0] → vehiclePool[1] → …`) into the free list, then
`scheduleNextReset()` runs; state starts `Init`, `errorCount` `0`. -/
def mkMonitor (period now : Nat) : Monitor :=
  scheduleNextReset now
    { pool := fun _ => { category := VehicleCategory.Bicycle, id := "", count := 0 }
      freeList := List.range MAX_VEHICLES
      bicycleList := []
      carList := []
      scooterList := []
      alphabeticalList := []
      state := State.Init
      errorCount := 0
      period := period
      nextResetTime := 0 }

/-- The member function `AllocateVehicle()`: pop the free-list head and
clear its payload with `Vehicle::reset()`; `nullptr` becomes `none`. -/
def AllocateVehicle (m : Monitor) : Option (Nat × Monitor) :=
  match m.freeList with
  | [] => none
  | v :: rest =>
    some (v, { m with freeList := rest
                      pool := Function.update m.pool v (m.pool v).reset })

/-- The member function `FreeVehicle(v)`: unlink `v` from its category
hook and its alphabetical hook wherever it is linked, then push it on the
free list.  The payload is NOT cleared here. -/
def FreeVehicle (v : Nat) (m : Monitor) : Monitor :=
  { m with bicycleList := m.bicycleList.erase v
           carList := m.carList.erase v
           scooterList := m.scooterList.erase v
           alphabeticalList := m.alphabeticalList.erase v
           freeList := v :: m.freeList }

/-- Lexicographic comparison of identifiers, as `std::string::operator<`
performs it: character-by-character comparison of the underlying
sequences. -/
def strLt (a b : String) : Prop :=
  List.lt a.data b.data

instance (a b : String) : Decidable (strLt a b) :=
  List.hasDecidableLt a.data b.data

/-- The loop body of `InsertAlphaSorted`: walk the alphabetical list and
insert `v` immediately before the first element whose identifier is
strictly greater; otherwise `push_back` at the tail. -/
def insertAlphaSortedList (pool : Nat → Vehicle) (v : Nat) : List Nat → List Nat
  | [] => [v]
  | j :: rest =>
    if strLt (pool v).id (pool j).id then v :: j :: rest
    else j :: insertAlphaSortedList pool v rest

/-- The member function `InsertAlphaSorted(v)`. -/
def InsertAlphaSorted (v : Nat) (m : Monitor) : Monitor :=
  { m with alphabeticalList := insertAlphaSortedList m.pool v m.alphabeticalList }

/-- The member function `InsertVehicle(v)`: `push_back` on the list of
`v`'s category, then `InsertAlphaSorted(v)`. -/
def InsertVehicle (v : Nat) (m : Monitor) : Monitor :=
  InsertAlphaSorted v
    (match (m.pool v).category with
     | VehicleCategory.Bicycle => { m with bicycleList := m.bicycleList ++ [v] }
     | VehicleCategory.Car => { m with carList := m.carList ++ [v] }
     | VehicleCategory.Scooter => { m with scooterList := m.scooterList ++ [v] })

/-- The category-specific list selected by the `switch` statements of
`FindVehicle` and `GetStatistics(cat)`. -/
def categoryList (m : Monitor) : VehicleCategory → List Nat
  | .Bicycle => m.bicycleList
  | .Car => m.carList
  | .Scooter => m.scooterList

/-- The member function `FindVehicle(cat, id)`: linear scan of the
category's list for the first element with a matching identifier. -/
def FindVehicle (m : Monitor) (cat : VehicleCategory) (id : String) : Option Nat :=
  (categoryList m cat).find? (fun i => (m.pool i).id == id)

/-- The member function `Reset()`: force `Active`, clear the error
counter, free every vehicle of each category list (iterating the list
current at the start of its loop), clear the alphabetical list, and
reschedule the periodic reset. -/
def Reset (now : Nat) (m : Monitor) : Monitor :=
  let m1 := { m with state := State.Active, errorCount := 0 }
  let m2 := m1.bicycleList.foldl (fun acc v => FreeVehicle v acc) m1
  let m3 := m2.carList.foldl (fun acc v => FreeVehicle v acc) m2
  let m4 := m3.scooterList.foldl (fun acc v => FreeVehicle v acc) m3
  scheduleNextReset now { m4 with alphabeticalList := [] }

/-- The member function `Start()`: `Init → Active` plus rescheduling;
a no-op in every other state. -/
def Start (now : Nat) (m : Monitor) : Monitor :=
  if m.state = State.Init then scheduleNextReset now { m with state := State.Active }
  else m

/-- The member function `Stop()`: `Active → Stopped`; a no-op otherwise. -/
def Stop (m : Monitor) : Monitor :=
  if m.state = State.Active then { m with state := State.Stopped }
  else m

/-- The member function `CheckAndHandlePeriodicReset()`: suppressed in
`Stopped`; otherwise a full `Reset()` once `now` reaches
`nextResetTime`. -/
def CheckAndHandlePeriodicReset (now : Nat) (m : Monitor) : Monitor :=
  if m.state = State.Stopped then m
  else if m.nextResetTime ≤ now then Reset now m
  else m

/-- The overload `OnSignal(ResetSignal)`: an unconditional `Reset()`. -/
def OnSignalReset (now : Nat) (m : Monitor) : Monitor :=
  Reset now m

/-- The part of the overload `OnSignal()` (camera-error signal) after the
periodic-reset check: ignore in `Init`/`Stopped`; `Active → Error`
(without touching the error counter); in `Error` increment the error
counter. -/
def errorDisposition (m : Monitor) : Monitor :=
  if m.state = State.Init ∨ m.state = State.Stopped then m
  else if m.state = State.Active then { m with state := State.Error }
  else if m.state = State.Error then { m with errorCount := m.errorCount + 1 }
  else m

/-- The overload `OnSignal()` (camera-error signal): the periodic-reset
check runs first, then the error disposition. -/
def OnSignalError (now : Nat) (m : Monitor) : Monitor :=
  errorDisposition (CheckAndHandlePeriodicReset now m)

/-- The part of `CrossroadTrafficMonitoring_OnSignal_Helper` after the
periodic-reset check: ignore in `Init`/`Stopped`; in `Error` count a
fault and drop the vehicle; in `Active` increment an existing record in
place, or allocate, fill and insert a new one, counting a fault (with no
state change) when the pool is exhausted. -/
def vehicleDisposition (cat : VehicleCategory) (id : String) (m : Monitor) : Monitor :=
  if m.state = State.Init ∨ m.state = State.Stopped then m
  else if m.state = State.Error then { m with errorCount := m.errorCount + 1 }
  else
    match FindVehicle m cat id with
    | some i =>
      { m with pool := Function.update m.pool i { m.pool i with count := (m.pool i).count + 1 } }
    | none =>
      match AllocateVehicle m with
      | none => { m with errorCount := m.errorCount + 1 }
      | some (v, m') =>
        InsertVehicle v
          { m' with pool := Function.update m'.pool v { category := cat, id := id, count := 1 } }

/-- The friend `CrossroadTrafficMonitoring_OnSignal_Helper`, shared by the
three vehicle overloads of `OnSignal`: the periodic-reset check runs
first, then the vehicle's disposition. -/
def OnSignalVehicle (cat : VehicleCategory) (id : String) (now : Nat) (m : Monitor) :
    Monitor :=
  vehicleDisposition cat id (CheckAndHandlePeriodicReset now m)

/-- The member function `GetErrorCount()`. -/
def GetErrorCount (m : Monitor) : Nat :=
  m.errorCount

/-- The member function `GetCurrentState()`. -/
def GetCurrentState (m : Monitor) : State :=
  m.state

/-- One line of statistics output: `"<id> - <CategoryName> (<count>)"`. -/
def statLine (v : Vehicle) : String :=
  v.id ++ " - " ++ categoryName v.category ++ " (" ++ toString v.count ++ ")"

/-- The overload `GetStatistics(cat)`: the category list rendered in its
own (insertion) order. -/
def GetStatisticsCat (m : Monitor) (cat : VehicleCategory) : List String :=
  (categoryList m cat).map (fun i => statLine (m.pool i))

/-- The overload `GetStatistics()`: the alphabetical list rendered in its
(identifier-sorted) order. -/
def GetStatistics (m : Monitor) : List String :=
  m.alphabeticalList.map (fun i => statLine (m.pool i))

/-- One public operation of the monitor, with the wall-clock instant at
which it runs. Read-only operations do not change the state and are
omitted. -/
inductive Step : Monitor → Monitor → Prop where
  | start (now : Nat) (m : Monitor) : Step m (Start now m)
  | stop (m : Monitor) : Step m (Stop m)
  | reset (now : Nat) (m : Monitor) : Step m (Reset now m)
  | vehicle (cat : VehicleCategory) (id : String) (now : Nat) (m : Monitor) :
      Step m (OnSignalVehicle cat id now m)
  | error (now : Nat) (m : Monitor) : Step m (OnSignalError now m)
  | resetSignal (now : Nat) (m : Monitor) : Step m (OnSignalReset now m)

/-- A monitor state reachable from some freshly constructed instance by
public operations. -/
def Reachable (m : Monitor) : Prop :=
  ∃ period now, Relation.ReflTransGen Step (mkMonitor period now) m

/-- The concatenation of the three category lists: the Live slots. -/
def liveIndices (m : Monitor) : List Nat :=
  m.bicycleList ++ m.carList ++ m.scooterList

/-- The records of category `cat` carrying identifier `id` (slot indices,
in category-list order). -/
def recMatches (m : Monitor) (cat : VehicleCategory) (id : String) : List Nat :=
  (categoryList m cat).filter (fun i => (m.pool i).id == id)

/-- Well-formedness of a monitor state: free list and category lists
partition the pool, the alphabetical list holds exactly the Live slots,
each category list holds slots of its own category, and the alphabetical
list is sorted by identifier. -/
structure WF (m : Monitor) : Prop where
  perm : (m.freeList ++ liveIndices m).Perm (List.range MAX_VEHICLES)
  alphaPerm : m.alphabeticalList.Perm (liveIndices m)
  catB : ∀ i ∈ m.bicycleList, (m.pool i).category = VehicleCategory.Bicycle
  catC : ∀ i ∈ m.carList, (m.pool i).category = VehicleCategory.Car
  catS : ∀ i ∈ m.scooterList, (m.pool i).category = VehicleCategory.Scooter
  sorted : List.Sorted (· ≤ ·) (m.alphabeticalList.map (fun i => (m.pool i).id))

/-- A concrete monitor whose pool is exhausted (no Free slot), used to
evaluate the capacity-exhausted disposition at a concrete input. -/
def exhaustedMonitor : Monitor :=
  { pool := fun _ => { category := VehicleCategory.Bicycle, id := "", count := 0 }
    freeList := []
    bicycleList := []
    carList := []
    scooterList := []
    alphabeticalList := []
    state := State.Active
    errorCount := 0
    period := 5
    nextResetTime := 10 }

/-- A concrete monitor holding one Live record (slot 0: a Car "A" seen
twice), used to evaluate `FreeVehicle` at a concrete input. -/
def liveSlotMonitor : Monitor :=
  { pool := fun _ => { category := VehicleCategory.Car, id := "A", count := 2 }
    freeList := [1]
    bicycleList := []
    carList := [0]
    scooterList := []
    alphabeticalList := [0]
    state := State.Active
    errorCount := 0
    period := 5
    nextResetTime := 10 }

/-! ### Order facts about the identifier comparison -/

theorem strLt_iff_lt (a b : String) : strLt a b ↔ a < b := by
  rw [String.lt_iff_toList_lt]
  show List.lt a.data b.data ↔ List.Lex (· < ·) a.toList b.toList
  exact List.lt_iff_lex_lt _ _

theorem le_of_not_strLt {a b : String} (h : ¬ strLt a b) : b ≤ a :=
  le_of_not_lt (fun hlt => h ((strLt_iff_lt a b).mpr hlt))

theorem strLt_empty_iff (s : String) : strLt "" s ↔ s ≠ "" := by
  constructor
  · intro h hs
    subst hs
    cases h
  · intro h
    show List.lt (String.data "") s.data
    cases hd : s.data with
    | nil => exact absurd (by cases s; simp_all) h
    | cons c cs => exact List.lt.nil c cs

/-! ### Fold lemmas for `Reset` -/

theorem foldFree_fields (l : List Nat) (m : Monitor) :
    (l.foldl (fun acc v => FreeVehicle v acc) m).pool = m.pool ∧
    (l.foldl (fun acc v => FreeVehicle v acc) m).state = m.state ∧
    (l.foldl (fun acc v => FreeVehicle v acc) m).errorCount = m.errorCount ∧
    (l.foldl (fun acc v => FreeVehicle v acc) m).period = m.period ∧
    (l.foldl (fun acc v => FreeVehicle v acc) m).nextResetTime = m.nextResetTime ∧
    (l.foldl (fun acc v => FreeVehicle v acc) m).bicycleList
      = l.foldl List.erase m.bicycleList ∧
    (l.foldl (fun acc v => FreeVehicle v acc) m).carList
      = l.foldl List.erase m.carList ∧
    (l.foldl (fun acc v => FreeVehicle v acc) m).scooterList
      = l.foldl List.erase m.scooterList ∧
    (l.foldl (fun acc v => FreeVehicle v acc) m).alphabeticalList
      = l.foldl List.erase m.alphabeticalList ∧
    (l.foldl (fun acc v => FreeVehicle v acc) m).freeList
      = l.reverse ++ m.freeList := by
  induction l generalizing m with
  | nil => simp
  | cons a t ih =>
    simpa [FreeVehicle, List.append_assoc] using ih (FreeVehicle a m)

theorem foldl_erase_self (l : List Nat) : l.foldl List.erase l = [] := by
  induction l with
  | nil => rfl
  | cons a t ih => simpa [List.erase_cons_head] using ih

theorem foldl_erase_of_disjoint (l : List Nat) (acc : List Nat)
    (h : ∀ x ∈ l, x ∉ acc) : l.foldl List.erase acc = acc := by
  induction l with
  | nil => rfl
  | cons a t ih =>
    have ha : acc.erase a = acc := List.erase_of_not_mem (h a (by simp))
    simp only [List.foldl_cons, ha]
    exact ih (fun x hx => h x (by simp [hx]))

theorem foldl_erase_nil (l : List Nat) : l.foldl List.erase [] = [] :=
  foldl_erase_of_disjoint l [] (by simp)

/-! ### Lemmas about alphabetical insertion -/

theorem insertAlpha_perm (p : Nat → Vehicle) (v : Nat) (l : List Nat) :
    (insertAlphaSortedList p v l).Perm (v :: l) := by
  induction l with
  | nil => simp [insertAlphaSortedList]
  | cons j rest ih =>
    by_cases h : strLt (p v).id (p j).id
    · simp [insertAlphaSortedList, h]
    · simp only [insertAlphaSortedList, if_neg h]
      exact (ih.cons j).trans (List.Perm.swap v j rest)

theorem insertAlpha_sorted (p : Nat → Vehicle) (v : Nat) (l : List Nat)
    (h : List.Sorted (· ≤ ·) (l.map (fun i => (p i).id))) :
    List.Sorted (· ≤ ·) ((insertAlphaSortedList p v l).map (fun i => (p i).id)) := by
  induction l with
  | nil => simp [insertAlphaSortedList]
  | cons j rest ih =>
    simp only [List.map_cons, List.sorted_cons] at h
    by_cases hlt : strLt (p v).id (p j).id
    · have hvj : (p v).id ≤ (p j).id := le_of_lt ((strLt_iff_lt _ _).mp hlt)
      simp only [insertAlphaSortedList, if_pos hlt, List.map_cons, List.sorted_cons]
      refine ⟨?_, h.1, h.2⟩
      intro b hb
      rcases (by simpa using hb : b = (p j).id ∨ b ∈ rest.map (fun i => (p i).id)) with
        hb | hb
      · rw [hb]; exact hvj
      · exact le_trans hvj (h.1 _ hb)
    · have hjv : (p j).id ≤ (p v).id := le_of_not_strLt hlt
      simp only [insertAlphaSortedList, if_neg hlt, List.map_cons, List.sorted_cons]
      refine ⟨?_, ih h.2⟩
      intro b hb
      have hmem : b ∈ (v :: rest).map (fun i => (p i).id) :=
        ((insertAlpha_perm p v rest).map (fun i => (p i).id)).mem_iff.mp hb
      rcases (by simpa using hmem : b = (p v).id ∨ b ∈ rest.map (fun i => (p i).id)) with
        hb' | hb'
      · rw [hb']; exact hjv
      · exact h.1 _ hb'

theorem insertAlpha_filter_append (p : Nat → Vehicle) (v : Nat) (l : List Nat)
    (h : List.Sorted (· ≤ ·) (l.map (fun i => (p i).id))) :
    (insertAlphaSortedList p v l).filter (fun x => (p x).id == (p v).id)
      = l.filter (fun x => (p x).id == (p v).id) ++ [v] := by
  induction l with
  | nil => simp [insertAlphaSortedList]
  | cons j rest ih =>
    simp only [List.map_cons, List.sorted_cons] at h
    by_cases hlt : strLt (p v).id (p j).id
    · have hvj : (p v).id < (p j).id := (strLt_iff_lt _ _).mp hlt
      have hne : ∀ x ∈ j :: rest, ¬ ((p x).id == (p v).id) = true := by
        intro x hx
        simp only [beq_iff_eq]
        intro heq
        have hge : (p j).id ≤ (p x).id := by
          rcases List.mem_cons.mp hx with hx' | hx'
          · rw [hx']
          · exact h.1 _ (List.mem_map_of_mem _ hx')
        exact absurd (heq ▸ lt_of_lt_of_le hvj hge) (lt_irrefl _)
      have h1 : List.filter (fun x => (p x).id == (p v).id) (j :: rest) = [] :=
        List.filter_eq_nil_iff.mpr hne
      simp [insertAlphaSortedList, hlt, List.filter_cons, h1]
    · simp only [insertAlphaSortedList, if_neg hlt, List.filter_cons]
      by_cases hj : ((p j).id == (p v).id) = true
      · simp only [hj, if_pos, ih h.2]
        simp
      · simp only [hj, Bool.false_eq_true, if_false, ih h.2]

theorem insertAlpha_split (p : Nat → Vehicle) (v : Nat) (l : List Nat) :
    ∃ l₁ l₂, insertAlphaSortedList p v l = l₁ ++ v :: l₂ ∧ l = l₁ ++ l₂ ∧
      ∀ j ∈ l₁, ¬ strLt (p v).id (p j).id := by
  induction l with
  | nil => exact ⟨[], [], by simp [insertAlphaSortedList]⟩
  | cons j rest ih =>
    by_cases hlt : strLt (p v).id (p j).id
    · exact ⟨[], j :: rest, by simp [insertAlphaSortedList, hlt]⟩
    · obtain ⟨l₁, l₂, h1, h2, h3⟩ := ih
      refine ⟨j :: l₁, l₂, ?_, by simp [h2], ?_⟩
      · simp [insertAlphaSortedList, if_neg hlt, h1]
      · intro x hx
        rcases List.mem_cons.mp hx with hx' | hx'
        · rw [hx']; exact hlt
        · exact h3 x hx'

/-! ### Filter and find facts -/

theorem find?_of_filter_eq_nil {p : Nat → Bool} {l : List Nat}
    (h : l.filter p = []) : l.find? p = none := by
  rw [List.find?_eq_none]
  intro x hx
  exact (List.filter_eq_nil_iff.mp h) x hx

theorem find?_of_filter_eq_single {p : Nat → Bool} {l : List Nat} {a : Nat}
    (h : l.filter p = [a]) : l.find? p = some a := by
  induction l with
  | nil => simp at h
  | cons x t ih =>
    by_cases hx : p x = true
    · rw [List.filter_cons_of_pos hx] at h
      simp only [List.cons.injEq] at h
      obtain ⟨h1, -⟩ := h
      subst h1
      simp [List.find?, hx]
    · rw [List.filter_cons_of_neg (by simpa using hx)] at h
      simp [List.find?, hx, ih h]

/-! ### Well-formedness: initial state and preservation -/

theorem WF_of_fields {m m' : Monitor} (h : WF m)
    (hp : m'.pool = m.pool) (hf : m'.freeList = m.freeList)
    (hb : m'.bicycleList = m.bicycleList) (hc : m'.carList = m.carList)
    (hs : m'.scooterList = m.scooterList)
    (ha : m'.alphabeticalList = m.alphabeticalList) : WF m' := by
  have hl : liveIndices m' = liveIndices m := by simp [liveIndices, hb, hc, hs]
  exact ⟨by rw [hf, hl]; exact h.perm,
         by rw [ha, hl]; exact h.alphaPerm,
         by rw [hb, hp]; exact h.catB,
         by rw [hc, hp]; exact h.catC,
         by rw [hs, hp]; exact h.catS,
         by rw [ha, hp]; exact h.sorted⟩

theorem WF_mkMonitor (period now : Nat) : WF (mkMonitor period now) := by
  refine ⟨?_, ?_, ?_, ?_, ?_, ?_⟩ <;>
    simp [mkMonitor, scheduleNextReset, liveIndices]

theorem WF_Start {m : Monitor} (h : WF m) (now : Nat) : WF (Start now m) := by
  unfold Start scheduleNextReset
  split
  · exact WF_of_fields h rfl rfl rfl rfl rfl rfl
  · exact h

theorem WF_Stop {m : Monitor} (h : WF m) : WF (Stop m) := by
  unfold Stop
  split
  · exact WF_of_fields h rfl rfl rfl rfl rfl rfl
  · exact h

theorem Reset_fields (now : Nat) (m : Monitor) :
    (Reset now m).state = State.Active ∧
    (Reset now m).errorCount = 0 ∧
    (Reset now m).pool = m.pool ∧
    (Reset now m).bicycleList = [] ∧
    (Reset now m).carList = [] ∧
    (Reset now m).scooterList = [] ∧
    (Reset now m).alphabeticalList = [] ∧
    (Reset now m).period = m.period ∧
    (Reset now m).nextResetTime = now + m.period := by
  set m1 : Monitor := { m with state := State.Active, errorCount := 0 } with hm1
  set m2 : Monitor := m1.bicycleList.foldl (fun acc v => FreeVehicle v acc) m1 with hm2
  set m3 : Monitor := m2.carList.foldl (fun acc v => FreeVehicle v acc) m2 with hm3
  set m4 : Monitor := m3.scooterList.foldl (fun acc v => FreeVehicle v acc) m3 with hm4
  have hR : Reset now m = scheduleNextReset now { m4 with alphabeticalList := [] } := rfl
  obtain ⟨p2, s2, e2, pd2, n2, b2, c2, sc2, a2, f2⟩ := foldFree_fields m1.bicycleList m1
  obtain ⟨p3, s3, e3, pd3, n3, b3, c3, sc3, a3, f3⟩ := foldFree_fields m2.carList m2
  obtain ⟨p4, s4, e4, pd4, n4, b4, c4, sc4, a4, f4⟩ := foldFree_fields m3.scooterList m3
  rw [← hm2] at p2 s2 e2 pd2 n2 b2 c2 sc2 a2 f2
  rw [← hm3] at p3 s3 e3 pd3 n3 b3 c3 sc3 a3 f3
  rw [← hm4] at p4 s4 e4 pd4 n4 b4 c4 sc4 a4 f4
  have hb2 : m2.bicycleList = [] := by rw [b2, foldl_erase_self]
  have hc3 : m3.carList = [] := by rw [c3, foldl_erase_self]
  have hb3 : m3.bicycleList = [] := by rw [b3, hb2, foldl_erase_nil]
  have hs4 : m4.scooterList = [] := by rw [sc4, foldl_erase_self]
  have hb4 : m4.bicycleList = [] := by rw [b4, hb3, foldl_erase_nil]
  have hc4 : m4.carList = [] := by rw [c4, hc3, foldl_erase_nil]
  refine ⟨?_, ?_, ?_, ?_, ?_, ?_, ?_, ?_, ?_⟩ <;>
    simp [hR, scheduleNextReset, s4, s3, s2, e4, e3, e2, p4, p3, p2,
      pd4, pd3, pd2, hb4, hc4, hs4, hm1]

theorem WF.nodupAll {m : Monitor} (h : WF m) :
    (m.freeList ++ liveIndices m).Nodup :=
  h.perm.symm.nodup (List.nodup_range _)

theorem WF.free_disjoint_live {m : Monitor} (h : WF m) :
    ∀ v ∈ m.freeList, v ∉ liveIndices m := by
  have := h.nodupAll
  rw [List.nodup_append] at this
  exact fun v hv => this.2.2 hv

theorem Reset_freeList_perm (now : Nat) (m : Monitor) (h : WF m) :
    (Reset now m).freeList.Perm (liveIndices m ++ m.freeList) := by
  have hd := h.free_disjoint_live
  have hnd := h.nodupAll
  rw [List.nodup_append] at hnd
  have hndLive : (liveIndices m).Nodup := hnd.2.1
  rw [show liveIndices m = m.bicycleList ++ m.carList ++ m.scooterList from rfl,
    List.nodup_append] at hndLive
  have hndBC := hndLive.1
  rw [List.nodup_append] at hndBC
  have hbc : ∀ x ∈ m.bicycleList, x ∉ m.carList := fun x hx => hndBC.2.2 hx
  have hbs : ∀ x ∈ m.bicycleList, x ∉ m.scooterList :=
    fun x hx => hndLive.2.2 (List.mem_append_left _ hx)
  have hcs : ∀ x ∈ m.carList, x ∉ m.scooterList :=
    fun x hx => hndLive.2.2 (List.mem_append_right _ hx)
  set m1 : Monitor := { m with state := State.Active, errorCount := 0 } with hm1
  set m2 : Monitor := m1.bicycleList.foldl (fun acc v => FreeVehicle v acc) m1 with hm2
  set m3 : Monitor := m2.carList.foldl (fun acc v => FreeVehicle v acc) m2 with hm3
  set m4 : Monitor := m3.scooterList.foldl (fun acc v => FreeVehicle v acc) m3 with hm4
  have hR : Reset now m = scheduleNextReset now { m4 with alphabeticalList := [] } := rfl
  obtain ⟨p2, s2, e2, pd2, n2, b2, c2, sc2, a2, f2⟩ := foldFree_fields m1.bicycleList m1
  obtain ⟨p3, s3, e3, pd3, n3, b3, c3, sc3, a3, f3⟩ := foldFree_fields m2.carList m2
  obtain ⟨p4, s4, e4, pd4, n4, b4, c4, sc4, a4, f4⟩ := foldFree_fields m3.scooterList m3
  rw [← hm2] at c2 sc2 f2
  rw [← hm3] at sc3 f3
  rw [← hm4] at f4
  have hc2 : m2.carList = m.carList := by
    rw [c2]
    exact foldl_erase_of_disjoint _ _ (by simpa [hm1] using hbc)
  have hsc2 : m2.scooterList = m.scooterList := by
    rw [sc2]
    exact foldl_erase_of_disjoint _ _ (by simpa [hm1] using hbs)
  have hsc3 : m3.scooterList = m.scooterList := by
    rw [sc3, hc2, hsc2]
    exact foldl_erase_of_disjoint _ _ hcs
  have hfree : (Reset now m).freeList
      = m.scooterList.reverse ++ (m.carList.reverse ++ (m.bicycleList.reverse ++ m.freeList)) := by
    rw [hR]
    show ({ m4 with alphabeticalList := ([] : List Nat) } : Monitor).freeList
      = m.scooterList.reverse ++ (m.carList.reverse ++ (m.bicycleList.reverse ++ m.freeList))
    simp only
    rw [f4, hsc3, f3, hc2, f2, hm1]
  rw [hfree, show liveIndices m = m.bicycleList ++ m.carList ++ m.scooterList from rfl]
  rw [List.perm_iff_count]
  intro a
  simp only [List.count_append, List.count_reverse]
  omega

theorem WF_Reset {m : Monitor} (h : WF m) (now : Nat) : WF (Reset now m) := by
  obtain ⟨hs, he, hp, hb, hc, hsc, ha, hpd, hn⟩ := Reset_fields now m
  have hperm := Reset_freeList_perm now m h
  refine ⟨?_, ?_, ?_, ?_, ?_, ?_⟩
  · simp only [liveIndices, hb, hc, hsc, List.append_nil]
    exact hperm.trans (List.perm_append_comm.trans h.perm)
  · simp only [liveIndices, ha, hb, hc, hsc, List.append_nil]
    exact List.Perm.refl _
  · rw [hb]; intro i hi; cases hi
  · rw [hc]; intro i hi; cases hi
  · rw [hsc]; intro i hi; cases hi
  · rw [ha]; simp

theorem WF_Check {m : Monitor} (h : WF m) (now : Nat) :
    WF (CheckAndHandlePeriodicReset now m) := by
  unfold CheckAndHandlePeriodicReset
  split
  · exact h
  · split
    · exact WF_Reset h now
    · exact h

/-! ### Shape of the periodic-reset check and of the vehicle disposition -/

theorem Check_stopped {m : Monitor} {now : Nat} (h : m.state = State.Stopped) :
    CheckAndHandlePeriodicReset now m = m := by
  simp [CheckAndHandlePeriodicReset, h]

theorem Check_not_due {m : Monitor} {now : Nat} (h : now < m.nextResetTime) :
    CheckAndHandlePeriodicReset now m = m := by
  unfold CheckAndHandlePeriodicReset
  split
  · rfl
  · rw [if_neg (by omega)]

theorem Check_due {m : Monitor} {now : Nat} (h1 : m.state ≠ State.Stopped)
    (h2 : m.nextResetTime ≤ now) :
    CheckAndHandlePeriodicReset now m = Reset now m := by
  simp [CheckAndHandlePeriodicReset, h1, h2]

theorem update_preserve (p : Nat → Vehicle) (i : Nat) (w : Vehicle)
    (hid : w.id = (p i).id) (hcat : w.category = (p i).category) (j : Nat) :
    ((Function.update p i w) j).id = (p j).id ∧
    ((Function.update p i w) j).category = (p j).category := by
  by_cases hj : j = i
  · subst hj
    simp [Function.update_same, hid, hcat]
  · simp [Function.update_noteq hj]

theorem disposition_found {m : Monitor} {cat : VehicleCategory} {id : String} {i : Nat}
    (hA : m.state = State.Active) (hfind : FindVehicle m cat id = some i) :
    vehicleDisposition cat id m
      = { m with
            pool := Function.update m.pool i { m.pool i with count := (m.pool i).count + 1 } } := by
  unfold vehicleDisposition
  rw [if_neg (by simp [hA]), if_neg (by simp [hA]), hfind]

theorem disposition_exhausted {m : Monitor} {cat : VehicleCategory} {id : String}
    (hA : m.state = State.Active) (hfind : FindVehicle m cat id = none)
    (hfree : m.freeList = []) :
    vehicleDisposition cat id m = { m with errorCount := m.errorCount + 1 } := by
  unfold vehicleDisposition
  rw [if_neg (by simp [hA]), if_neg (by simp [hA]), hfind]
  simp [AllocateVehicle, hfree]

theorem disposition_new {m : Monitor} {cat : VehicleCategory} {id : String} {v : Nat}
    {rest : List Nat}
    (hA : m.state = State.Active) (hfind : FindVehicle m cat id = none)
    (hfree : m.freeList = v :: rest) :
    vehicleDisposition cat id m
      = InsertVehicle v
          { m with
              freeList := rest,
              pool := Function.update m.pool v { category := cat, id := id, count := 1 } } := by
  unfold vehicleDisposition
  rw [if_neg (by simp [hA]), if_neg (by simp [hA]), hfind]
  simp only [AllocateVehicle, hfree]
  rw [Function.update_idem]

theorem InsertVehicle_fields (v : Nat) (m : Monitor) :
    (InsertVehicle v m).pool = m.pool ∧
    (InsertVehicle v m).freeList = m.freeList ∧
    (InsertVehicle v m).state = m.state ∧
    (InsertVehicle v m).errorCount = m.errorCount ∧
    (InsertVehicle v m).period = m.period ∧
    (InsertVehicle v m).nextResetTime = m.nextResetTime ∧
    (∀ c, categoryList (InsertVehicle v m) c
        = if c = (m.pool v).category then categoryList m c ++ [v] else categoryList m c) ∧
    (InsertVehicle v m).alphabeticalList
      = insertAlphaSortedList m.pool v m.alphabeticalList := by
  unfold InsertVehicle InsertAlphaSorted
  cases hcat : (m.pool v).category <;>
    refine ⟨rfl, rfl, rfl, rfl, rfl, rfl, ?_, rfl⟩ <;>
    (intro c; cases c <;> simp [categoryList, hcat])

theorem mem_live_of_bicycle {m : Monitor} {j : Nat} (hj : j ∈ m.bicycleList) :
    j ∈ liveIndices m :=
  List.mem_append_left _ (List.mem_append_left _ hj)

theorem mem_live_of_car {m : Monitor} {j : Nat} (hj : j ∈ m.carList) :
    j ∈ liveIndices m :=
  List.mem_append_left _ (List.mem_append_right _ hj)

theorem mem_live_of_scooter {m : Monitor} {j : Nat} (hj : j ∈ m.scooterList) :
    j ∈ liveIndices m :=
  List.mem_append_right _ hj

theorem mem_if_append {b : List Nat} {v j : Nat} {cond : Prop} [Decidable cond]
    (hj : j ∈ if cond then b ++ [v] else b) : j = v ∨ j ∈ b := by
  split at hj
  · rcases List.mem_append.mp hj with hmem | hmem
    · exact Or.inr hmem
    · simp only [List.mem_singleton] at hmem
      exact Or.inl hmem
  · exact Or.inr hj

/-! ### Preservation of well-formedness by every public operation -/

theorem WF_vehicleDisposition {m : Monitor} (h : WF m) (cat : VehicleCategory)
    (id : String) : WF (vehicleDisposition cat id m) := by
  by_cases hIS : m.state = State.Init ∨ m.state = State.Stopped
  · rw [vehicleDisposition, if_pos hIS]
    exact h
  by_cases hE : m.state = State.Error
  · rw [vehicleDisposition, if_neg hIS, if_pos hE]
    exact WF_of_fields h rfl rfl rfl rfl rfl rfl
  have hA : m.state = State.Active := by
    cases hs : m.state <;> simp_all
  cases hfind : FindVehicle m cat id with
  | some i =>
    rw [disposition_found hA hfind]
    have hup := update_preserve m.pool i { m.pool i with count := (m.pool i).count + 1 }
      rfl rfl
    refine ⟨h.perm, h.alphaPerm, ?_, ?_, ?_, ?_⟩
    · intro j hj; rw [(hup j).2]; exact h.catB j hj
    · intro j hj; rw [(hup j).2]; exact h.catC j hj
    · intro j hj; rw [(hup j).2]; exact h.catS j hj
    · have hmap : (m.alphabeticalList.map fun j =>
          ((Function.update m.pool i { m.pool i with count := (m.pool i).count + 1 }) j).id)
          = m.alphabeticalList.map fun j => (m.pool j).id :=
        List.map_congr_left (fun j _ => (hup j).1)
      rw [hmap]
      exact h.sorted
  | none =>
    cases hfree : m.freeList with
    | nil =>
      rw [disposition_exhausted hA hfind hfree]
      exact WF_of_fields h rfl rfl rfl rfl rfl rfl
    | cons v rest =>
      rw [disposition_new hA hfind hfree]
      have hvfree : v ∈ m.freeList := by rw [hfree]; simp
      have hvlive : v ∉ liveIndices m := h.free_disjoint_live v hvfree
      have hvalpha : v ∉ m.alphabeticalList := fun hv => hvlive (h.alphaPerm.subset hv)
      set P := Function.update m.pool v { category := cat, id := id, count := 1 } with hP
      set m1 : Monitor := { m with freeList := rest, pool := P } with hm1
      obtain ⟨ip, iff', ist, ie, ipd, int, icats, ialpha⟩ := InsertVehicle_fields v m1
      have hPv : P v = { category := cat, id := id, count := 1 } := by
        rw [hP]; exact Function.update_same _ _ _
      have hPother : ∀ j, j ≠ v → P j = m.pool j := by
        intro j hj; rw [hP]; exact Function.update_noteq hj _ _
      have hcatPv : (m1.pool v).category = cat := by
        show (P v).category = cat
        rw [hPv]
      have hbl : (InsertVehicle v m1).bicycleList
          = if VehicleCategory.Bicycle = cat then m.bicycleList ++ [v] else m.bicycleList := by
        have hc := icats VehicleCategory.Bicycle
        rw [hcatPv] at hc
        simpa [categoryList, hm1] using hc
      have hcl : (InsertVehicle v m1).carList
          = if VehicleCategory.Car = cat then m.carList ++ [v] else m.carList := by
        have hc := icats VehicleCategory.Car
        rw [hcatPv] at hc
        simpa [categoryList, hm1] using hc
      have hsl : (InsertVehicle v m1).scooterList
          = if VehicleCategory.Scooter = cat then m.scooterList ++ [v] else m.scooterList := by
        have hc := icats VehicleCategory.Scooter
        rw [hcatPv] at hc
        simpa [categoryList, hm1] using hc
      have hlivePerm : (liveIndices (InsertVehicle v m1)).Perm (v :: liveIndices m) := by
        rw [List.perm_iff_count]
        intro a
        show ((InsertVehicle v m1).bicycleList ++ (InsertVehicle v m1).carList
          ++ (InsertVehicle v m1).scooterList).count a = _
        rw [hbl, hcl, hsl]
        cases cat <;>
          simp [liveIndices, List.count_append, List.count_cons] <;>
          omega
      refine ⟨?_, ?_, ?_, ?_, ?_, ?_⟩
      · rw [List.perm_iff_count]
        intro a
        have h1 := h.perm.count_eq a
        have h2 := hlivePerm.count_eq a
        rw [hfree] at h1
        rw [List.count_append] at h1 ⊢
        rw [iff']
        have hrest : m1.freeList = rest := rfl
        rw [hrest, h2]
        simp only [List.count_cons, List.count_append] at h1 ⊢
        omega
      · rw [ialpha]
        refine (insertAlpha_perm _ v _).trans (List.Perm.trans ?_ hlivePerm.symm)
        show (v :: m.alphabeticalList).Perm (v :: liveIndices m)
        exact h.alphaPerm.cons v
      · intro j hj
        rw [hbl] at hj
        rw [ip]
        rcases mem_if_append hj with hjv | hjb
        · subst hjv
          have hcB : VehicleCategory.Bicycle = cat := by
            by_contra hne
            rw [if_neg hne] at hj
            exact hvlive (mem_live_of_bicycle hj)
          show (P j).category = VehicleCategory.Bicycle
          rw [hPv]
          exact hcB.symm
        · have hjv : j ≠ v := fun hh => hvlive (hh ▸ mem_live_of_bicycle hjb)
          show (P j).category = VehicleCategory.Bicycle
          rw [hPother j hjv]
          exact h.catB j hjb
      · intro j hj
        rw [hcl] at hj
        rw [ip]
        rcases mem_if_append hj with hjv | hjb
        · subst hjv
          have hcC : VehicleCategory.Car = cat := by
            by_contra hne
            rw [if_neg hne] at hj
            exact hvlive (mem_live_of_car hj)
          show (P j).category = VehicleCategory.Car
          rw [hPv]
          exact hcC.symm
        · have hjv : j ≠ v := fun hh => hvlive (hh ▸ mem_live_of_car hjb)
          show (P j).category = VehicleCategory.Car
          rw [hPother j hjv]
          exact h.catC j hjb
      · intro j hj
        rw [hsl] at hj
        rw [ip]
        rcases mem_if_append hj with hjv | hjb
        · subst hjv
          have hcS : VehicleCategory.Scooter = cat := by
            by_contra hne
            rw [if_neg hne] at hj
            exact hvlive (mem_live_of_scooter hj)
          show (P j).category = VehicleCategory.Scooter
          rw [hPv]
          exact hcS.symm
        · have hjv : j ≠ v := fun hh => hvlive (hh ▸ mem_live_of_scooter hjb)
          show (P j).category = VehicleCategory.Scooter
          rw [hPother j hjv]
          exact h.catS j hjb
      · rw [ialpha, ip]
        refine insertAlpha_sorted m1.pool v m1.alphabeticalList ?_
        have halphaIds : (m1.alphabeticalList.map fun j => (m1.pool j).id)
            = m.alphabeticalList.map fun j => (m.pool j).id := by
          refine List.map_congr_left ?_
          intro j hj
          have hjv : j ≠ v := fun hh => hvalpha (hh ▸ hj)
          show (P j).id = (m.pool j).id
          rw [hPother j hjv]
        rw [halphaIds]
        exact h.sorted

theorem WF_OnSignalVehicle {m : Monitor} (h : WF m) (cat : VehicleCategory)
    (id : String) (now : Nat) : WF (OnSignalVehicle cat id now m) :=
  WF_vehicleDisposition (WF_Check h now) cat id

theorem WF_errorDisposition {m : Monitor} (h : WF m) : WF (errorDisposition m) := by
  unfold errorDisposition
  split
  · exact h
  · split
    · exact WF_of_fields h rfl rfl rfl rfl rfl rfl
    · split
      · exact WF_of_fields h rfl rfl rfl rfl rfl rfl
      · exact h

theorem WF_OnSignalError {m : Monitor} (h : WF m) (now : Nat) :
    WF (OnSignalError now m) :=
  WF_errorDisposition (WF_Check h now)

theorem WF_Step {m m' : Monitor} (h : WF m) (s : Step m m') : WF m' := by
  cases s with
  | start now m => exact WF_Start h now
  | stop m => exact WF_Stop h
  | reset now m => exact WF_Reset h now
  | vehicle cat id now m => exact WF_OnSignalVehicle h cat id now
  | error now m => exact WF_OnSignalError h now
  | resetSignal now m => exact WF_Reset h now

theorem Reachable_WF {m : Monitor} (h : Reachable m) : WF m := by
  obtain ⟨p, t, hr⟩ := h
  induction hr with
  | refl => exact WF_mkMonitor p t
  | tail _ s ih => exact WF_Step ih s

/-! ### Effect of one vehicle signal on the matching records -/

theorem signal_new_matches {m : Monitor} {cat : VehicleCategory} {id : String}
    {now v : Nat} {rest : List Nat}
    (hw : WF m) (hA : m.state = State.Active) (ht : now < m.nextResetTime)
    (h0 : recMatches m cat id = []) (hfree : m.freeList = v :: rest) :
    WF (OnSignalVehicle cat id now m) ∧
    (OnSignalVehicle cat id now m).state = State.Active ∧
    (OnSignalVehicle cat id now m).nextResetTime = m.nextResetTime ∧
    recMatches (OnSignalVehicle cat id now m) cat id = [v] ∧
    ((OnSignalVehicle cat id now m).pool v).count = 1 := by
  have hfind : FindVehicle m cat id = none := find?_of_filter_eq_nil h0
  have hvfree : v ∈ m.freeList := by rw [hfree]; simp
  have hvlive : v ∉ liveIndices m := hw.free_disjoint_live v hvfree
  have heq : OnSignalVehicle cat id now m
      = vehicleDisposition cat id m := by rw [OnSignalVehicle, Check_not_due ht]
  have hWF' : WF (OnSignalVehicle cat id now m) := WF_OnSignalVehicle hw cat id now
  set P := Function.update m.pool v { category := cat, id := id, count := 1 } with hP
  set m1 : Monitor := { m with freeList := rest, pool := P } with hm1
  have hM : OnSignalVehicle cat id now m = InsertVehicle v m1 := by
    rw [heq]
    exact disposition_new hA hfind hfree
  obtain ⟨ip, iff', ist, ie, ipd, int, icats, ialpha⟩ := InsertVehicle_fields v m1
  have hPv : P v = { category := cat, id := id, count := 1 } := by
    rw [hP]; exact Function.update_same _ _ _
  have hPother : ∀ j, j ≠ v → P j = m.pool j := by
    intro j hj; rw [hP]; exact Function.update_noteq hj _ _
  have hcatPv : (m1.pool v).category = cat := by
    show (P v).category = cat
    rw [hPv]
  refine ⟨hWF', by rw [hM, ist]; exact hA, by rw [hM, int],
    ?_, by rw [hM, ip]; show (P v).count = 1; rw [hPv]⟩
  have hcats := icats cat
  rw [hcatPv, if_pos rfl] at hcats
  have hcatm1 : categoryList m1 cat = categoryList m cat := by
    cases cat <;> simp [categoryList, hm1]
  rw [hcatm1] at hcats
  show (categoryList (OnSignalVehicle cat id now m) cat).filter
      (fun i => ((OnSignalVehicle cat id now m).pool i).id == id) = [v]
  rw [hM, hcats, ip]
  rw [List.filter_append]
  have hold : (categoryList m cat).filter (fun i => (P i).id == id) = [] := by
    have hcg : (categoryList m cat).filter (fun i => (P i).id == id)
        = (categoryList m cat).filter (fun i => (m.pool i).id == id) := by
      refine List.filter_congr ?_
      intro j hj
      have hjv : j ≠ v := by
        intro hh
        subst hh
        apply hvlive
        cases cat
        · exact mem_live_of_bicycle hj
        · exact mem_live_of_car hj
        · exact mem_live_of_scooter hj
      rw [hPother j hjv]
    rw [hcg]
    exact h0
  rw [hold]
  simp [hPv]

theorem signal_existing_matches {m : Monitor} {cat : VehicleCategory} {id : String}
    {now i : Nat}
    (hw : WF m) (hA : m.state = State.Active) (ht : now < m.nextResetTime)
    (h1 : recMatches m cat id = [i]) :
    WF (OnSignalVehicle cat id now m) ∧
    (OnSignalVehicle cat id now m).state = State.Active ∧
    (OnSignalVehicle cat id now m).nextResetTime = m.nextResetTime ∧
    recMatches (OnSignalVehicle cat id now m) cat id = [i] ∧
    ((OnSignalVehicle cat id now m).pool i).count = (m.pool i).count + 1 := by
  have hfind : FindVehicle m cat id = some i := find?_of_filter_eq_single h1
  have heq : OnSignalVehicle cat id now m
      = vehicleDisposition cat id m := by rw [OnSignalVehicle, Check_not_due ht]
  have hWF' : WF (OnSignalVehicle cat id now m) := WF_OnSignalVehicle hw cat id now
  set w : Vehicle := { m.pool i with count := (m.pool i).count + 1 } with hw'
  have hM : OnSignalVehicle cat id now m
      = { m with pool := Function.update m.pool i w } := by
    rw [heq]
    exact disposition_found hA hfind
  have hup := update_preserve m.pool i w rfl rfl
  refine ⟨hWF', by rw [hM]; exact hA, by rw [hM], ?_,
    by rw [hM]; simp [Function.update_same, hw']⟩
  rw [hM]
  show (categoryList { m with pool := Function.update m.pool i w } cat).filter
      (fun j => ((Function.update m.pool i w) j).id == id) = [i]
  have hcatm : categoryList { m with pool := Function.update m.pool i w } cat
      = categoryList m cat := by
    cases cat <;> simp [categoryList]
  rw [hcatm]
  have hcg : (categoryList m cat).filter (fun j => ((Function.update m.pool i w) j).id == id)
      = (categoryList m cat).filter (fun j => (m.pool j).id == id) := by
    refine List.filter_congr ?_
    intro j _
    rw [(hup j).1]
  rw [hcg]
  exact h1

/-! ### Claim theorems -/

set_option maxRecDepth 40000 in
/-- C1: the claim says an error signal in `Active` increments the fault
counter (Scenario C: counts 1, 2, 3).  The code transitions
`Active → Error` WITHOUT incrementing the counter (`OnSignal()` returns
right after setting the state), so the sequence of Scenario C yields
counts 0, 1, 2 — contradicting both the spec's transition table and the
repository's own gtest `ErrorHandling.EmptySignalsTriggerErrorState`,
which expects 1 after the first fault.  This theorem evaluates the
embedded code on Scenario C's exact inputs. -/
theorem C1_error_signal_divergence :
    GetCurrentState (OnSignalError 1 (Start 0 (mkMonitor 2000 0))) = State.Error ∧
    GetErrorCount (OnSignalError 1 (Start 0 (mkMonitor 2000 0))) = 0 ∧
    GetErrorCount (OnSignalError 2 (OnSignalError 1 (Start 0 (mkMonitor 2000 0)))) = 1 ∧
    GetErrorCount (OnSignalVehicle VehicleCategory.Car "E1" 3
      (OnSignalError 2 (OnSignalError 1 (Start 0 (mkMonitor 2000 0))))) = 2 ∧
    GetStatistics (OnSignalVehicle VehicleCategory.Car "E1" 3
      (OnSignalError 2 (OnSignalError 1 (Start 0 (mkMonitor 2000 0))))) = [] := by
  decide

/-- C2: `Reset()` (equally the reset signal, and the periodic reset,
which calls it) leaves the monitor `Active` with a zero fault counter,
both statistics views empty, and — from any reachable state — every
previously Live slot back on the free list. -/
theorem C2_reset_clears_all (now : Nat) (m : Monitor) :
    GetCurrentState (Reset now m) = State.Active ∧
    GetErrorCount (Reset now m) = 0 ∧
    GetStatistics (Reset now m) = [] ∧
    (∀ cat, GetStatisticsCat (Reset now m) cat = []) ∧
    OnSignalReset now m = Reset now m ∧
    (Reachable m → (Reset now m).freeList.Perm (liveIndices m ++ m.freeList)) := by
  obtain ⟨hs, he, hp, hb, hc, hsc, ha, _, _⟩ := Reset_fields now m
  refine ⟨hs, he, ?_, ?_, rfl, fun hr => Reset_freeList_perm now m (Reachable_WF hr)⟩
  · simp [GetStatistics, ha]
  · intro cat
    cases cat <;> simp [GetStatisticsCat, categoryList, hb, hc, hsc]

/-- Witness for C2 at a concrete reachable monitor. -/
theorem C2_reset_clears_all_witness :
    GetCurrentState (Reset 7 (mkMonitor 3 0)) = State.Active ∧
    GetErrorCount (Reset 7 (mkMonitor 3 0)) = 0 ∧
    GetStatistics (Reset 7 (mkMonitor 3 0)) = [] ∧
    GetStatisticsCat (Reset 7 (mkMonitor 3 0)) VehicleCategory.Car = [] ∧
    OnSignalReset 7 (mkMonitor 3 0) = Reset 7 (mkMonitor 3 0) ∧
    (Reset 7 (mkMonitor 3 0)).freeList.Perm
      (liveIndices (mkMonitor 3 0) ++ (mkMonitor 3 0).freeList) := by
  obtain ⟨h1, h2, h3, h4, h5, h6⟩ := C2_reset_clears_all 7 (mkMonitor 3 0)
  exact ⟨h1, h2, h3, h4 _, h5, h6 ⟨3, 0, Relation.ReflTransGen.refl⟩⟩

/-- C3: a vehicle signal for an unrecorded pair, arriving while `Active`
with an exhausted pool, increments the fault counter by one, creates no
record (both statistics views unchanged), and leaves the state `Active`
rather than `Error`. -/
theorem C3_capacity_exhausted (m : Monitor) (cat : VehicleCategory) (id : String)
    (now : Nat) (hA : m.state = State.Active) (hfree : m.freeList = [])
    (hfind : FindVehicle m cat id = none) (ht : now < m.nextResetTime) :
    (OnSignalVehicle cat id now m).errorCount = m.errorCount + 1 ∧
    (OnSignalVehicle cat id now m).state = State.Active ∧
    GetStatistics (OnSignalVehicle cat id now m) = GetStatistics m ∧
    GetStatisticsCat (OnSignalVehicle cat id now m) VehicleCategory.Bicycle
      = GetStatisticsCat m VehicleCategory.Bicycle ∧
    GetStatisticsCat (OnSignalVehicle cat id now m) VehicleCategory.Car
      = GetStatisticsCat m VehicleCategory.Car ∧
    GetStatisticsCat (OnSignalVehicle cat id now m) VehicleCategory.Scooter
      = GetStatisticsCat m VehicleCategory.Scooter := by
  have he : OnSignalVehicle cat id now m = { m with errorCount := m.errorCount + 1 } := by
    rw [OnSignalVehicle, Check_not_due ht]
    exact disposition_exhausted hA hfind hfree
  rw [he]
  exact ⟨rfl, hA, rfl, rfl, rfl, rfl⟩

/-- Witness for C3 at a concrete exhausted monitor. -/
theorem C3_capacity_exhausted_witness :
    exhaustedMonitor.state = State.Active ∧
    exhaustedMonitor.freeList = [] ∧
    FindVehicle exhaustedMonitor VehicleCategory.Car "A" = none ∧
    0 < exhaustedMonitor.nextResetTime ∧
    ((OnSignalVehicle VehicleCategory.Car "A" 0 exhaustedMonitor).errorCount
        = exhaustedMonitor.errorCount + 1 ∧
      (OnSignalVehicle VehicleCategory.Car "A" 0 exhaustedMonitor).state = State.Active ∧
      GetStatistics (OnSignalVehicle VehicleCategory.Car "A" 0 exhaustedMonitor)
        = GetStatistics exhaustedMonitor ∧
      GetStatisticsCat (OnSignalVehicle VehicleCategory.Car "A" 0 exhaustedMonitor)
          VehicleCategory.Bicycle
        = GetStatisticsCat exhaustedMonitor VehicleCategory.Bicycle ∧
      GetStatisticsCat (OnSignalVehicle VehicleCategory.Car "A" 0 exhaustedMonitor)
          VehicleCategory.Car
        = GetStatisticsCat exhaustedMonitor VehicleCategory.Car ∧
      GetStatisticsCat (OnSignalVehicle VehicleCategory.Car "A" 0 exhaustedMonitor)
          VehicleCategory.Scooter
        = GetStatisticsCat exhaustedMonitor VehicleCategory.Scooter) :=
  ⟨rfl, rfl, rfl, by decide,
    C3_capacity_exhausted exhaustedMonitor VehicleCategory.Car "A" 0 rfl rfl rfl (by decide)⟩

/-- C8 counterexample: the claim says `FreeVehicle` clears the slot's
payload to the default.  At this concrete input (a Live Car "A" with
count 2) the payload is untouched by `FreeVehicle`. -/
theorem C8_release_counterexample :
    ((FreeVehicle 0 liveSlotMonitor).pool 0).id = "A" ∧
    ((FreeVehicle 0 liveSlotMonitor).pool 0).count = 2 ∧
    ((FreeVehicle 0 liveSlotMonitor).pool 0).category = VehicleCategory.Car ∧
    ¬ ((FreeVehicle 0 liveSlotMonitor).pool 0
        = { category := VehicleCategory.Bicycle, id := "", count := 0 }) := by
  decide

/-- C8 amended: `FreeVehicle` detaches the slot from its category
collection and from the global collection and pushes it onto the free
stack, leaving the payload untouched; the payload is cleared to the
default (`Bicycle`, empty identifier, count 0, via `Vehicle::reset`) only
when the slot is next handed out by `AllocateVehicle`. -/
theorem C8_release_amended (v : Nat) (m : Monitor) :
    (FreeVehicle v m).pool = m.pool ∧
    (FreeVehicle v m).freeList = v :: m.freeList ∧
    (FreeVehicle v m).bicycleList = m.bicycleList.erase v ∧
    (FreeVehicle v m).carList = m.carList.erase v ∧
    (FreeVehicle v m).scooterList = m.scooterList.erase v ∧
    (FreeVehicle v m).alphabeticalList = m.alphabeticalList.erase v ∧
    (∀ w t, m.freeList = w :: t →
      AllocateVehicle m = some (w,
        { m with freeList := t, pool := Function.update m.pool w (m.pool w).reset }) ∧
      (Function.update m.pool w (m.pool w).reset) w
        = { category := VehicleCategory.Bicycle, id := "", count := 0 } ∧
      ∀ j, j ≠ w → (Function.update m.pool w (m.pool w).reset) j = m.pool j) := by
  refine ⟨rfl, rfl, rfl, rfl, rfl, rfl, ?_⟩
  intro w t hw
  refine ⟨by simp [AllocateVehicle, hw], ?_, ?_⟩
  · rw [Function.update_same]
    rfl
  · intro j hj
    exact Function.update_noteq hj _ _

/-- Witness for C8 amended at a concrete monitor with one Live slot. -/
theorem C8_release_amended_witness :
    (FreeVehicle 0 liveSlotMonitor).pool = liveSlotMonitor.pool ∧
    (FreeVehicle 0 liveSlotMonitor).freeList = 0 :: liveSlotMonitor.freeList ∧
    (FreeVehicle 0 liveSlotMonitor).carList = liveSlotMonitor.carList.erase 0 ∧
    (FreeVehicle 0 liveSlotMonitor).alphabeticalList
      = liveSlotMonitor.alphabeticalList.erase 0 ∧
    liveSlotMonitor.freeList = 1 :: [] ∧
    AllocateVehicle liveSlotMonitor = some (1,
      { liveSlotMonitor with
          freeList := [],
          pool := Function.update liveSlotMonitor.pool 1 (liveSlotMonitor.pool 1).reset }) ∧
    (Function.update liveSlotMonitor.pool 1 (liveSlotMonitor.pool 1).reset) 1
      = { category := VehicleCategory.Bicycle, id := "", count := 0 } := by
  obtain ⟨h1, h2, h3, h4, h5, h6, h7⟩ := C8_release_amended 0 liveSlotMonitor
  obtain ⟨g1, g2, _⟩ := h7 1 [] rfl
  exact ⟨h1, h2, h4, h6, rfl, g1, g2⟩

set_option maxRecDepth 40000 in
/-- C4: periodic-reset evaluation at the head of each signal-handling
call is suppressed exactly in `Stopped`; in any other state a due
deadline forces a full `Reset` (hence `Active`) before the signal's
disposition — in particular a never-started monitor first signaled after
its period has elapsed ends up `Active`. -/
theorem C4_periodic_reset (m : Monitor) (now p t0 : Nat)
    (cat : VehicleCategory) (id : String) :
    (m.state = State.Stopped → CheckAndHandlePeriodicReset now m = m) ∧
    (m.state ≠ State.Stopped → m.nextResetTime ≤ now →
      CheckAndHandlePeriodicReset now m = Reset now m) ∧
    (m.state ≠ State.Stopped → now < m.nextResetTime →
      CheckAndHandlePeriodicReset now m = m) ∧
    (OnSignalVehicle cat id now m
      = vehicleDisposition cat id (CheckAndHandlePeriodicReset now m)) ∧
    (OnSignalError now m = errorDisposition (CheckAndHandlePeriodicReset now m)) ∧
    (t0 + p ≤ now →
      GetCurrentState (OnSignalVehicle cat id now (mkMonitor p t0)) = State.Active) := by
  refine ⟨Check_stopped, Check_due, fun _ ht => Check_not_due ht, rfl, rfl, ?_⟩
  intro hle
  have hc : CheckAndHandlePeriodicReset now (mkMonitor p t0)
      = Reset now (mkMonitor p t0) := by
    refine Check_due (by simp [mkMonitor, scheduleNextReset]) ?_
    simpa [mkMonitor, scheduleNextReset] using hle
  rw [GetCurrentState, OnSignalVehicle, hc]
  obtain ⟨hA, _, _, hb, hcl, hsl, _, _, _⟩ := Reset_fields now (mkMonitor p t0)
  have hfind : FindVehicle (Reset now (mkMonitor p t0)) cat id = none := by
    have hcat : categoryList (Reset now (mkMonitor p t0)) cat = [] := by
      cases cat <;> simp [categoryList, hb, hcl, hsl]
    simp [FindVehicle, hcat]
  have hfl : (Reset now (mkMonitor p t0)).freeList = List.range MAX_VEHICLES := rfl
  have hne : (Reset now (mkMonitor p t0)).freeList ≠ [] := by
    rw [hfl]
    simp [MAX_VEHICLES, List.range_eq_nil]
  obtain ⟨w, t, hwt⟩ := List.exists_cons_of_ne_nil hne
  rw [disposition_new hA hfind hwt]
  obtain ⟨_, _, ist, _, _, _, _, _⟩ := InsertVehicle_fields w
    { Reset now (mkMonitor p t0) with
        freeList := t,
        pool := Function.update (Reset now (mkMonitor p t0)).pool w
          { category := cat, id := id, count := 1 } }
  rw [ist]
  exact hA

/-- Witness for C4: a `Stopped` monitor suppresses the periodic reset,
and a never-started monitor signaled past its deadline becomes
`Active`. -/
theorem C4_periodic_reset_witness :
    (Stop (Start 0 (mkMonitor 5 0))).state = State.Stopped ∧
    CheckAndHandlePeriodicReset 100 (Stop (Start 0 (mkMonitor 5 0)))
      = Stop (Start 0 (mkMonitor 5 0)) ∧
    0 + 5 ≤ 100 ∧
    GetCurrentState (OnSignalVehicle VehicleCategory.Car "A" 100 (mkMonitor 5 0))
      = State.Active := by
  obtain ⟨h1, _, _, _, _, h6⟩ :=
    C4_periodic_reset (Stop (Start 0 (mkMonitor 5 0))) 100 5 0 VehicleCategory.Car "A"
  exact ⟨by decide, h1 (by decide), by decide, h6 (by decide)⟩

/-- C5: in every reachable monitor state the Live slots number at most
1000, Live plus free equals 1000, the global collection's size equals the
sum of the three category collections' sizes, and every Live slot sits in
exactly one category collection and in the global collection. -/
theorem C5_pool_invariants (m : Monitor) (h : Reachable m) :
    (liveIndices m).length ≤ MAX_VEHICLES ∧
    (liveIndices m).length + m.freeList.length = MAX_VEHICLES ∧
    m.alphabeticalList.length
      = m.bicycleList.length + m.carList.length + m.scooterList.length ∧
    ∀ i ∈ liveIndices m,
      (m.bicycleList.count i + m.carList.count i + m.scooterList.count i = 1 ∧
        i ∈ m.alphabeticalList) := by
  have hw := Reachable_WF h
  have hlen := hw.perm.length_eq
  rw [List.length_append, List.length_range] at hlen
  refine ⟨by omega, by omega, ?_, ?_⟩
  · have halpha := hw.alphaPerm.length_eq
    simp [liveIndices, List.length_append] at halpha
    omega
  · intro i hi
    refine ⟨?_, hw.alphaPerm.mem_iff.mpr hi⟩
    have hnd : (liveIndices m).Nodup := hw.nodupAll.of_append_right
    have h1 : 0 < (liveIndices m).count i := List.count_pos_iff.mpr hi
    have h2 : (liveIndices m).count i ≤ 1 := List.nodup_iff_count_le_one.mp hnd i
    have hcount : (liveIndices m).count i = 1 := by omega
    simp [liveIndices, List.count_append] at hcount
    omega

/-- Witness for C5 at a concrete reachable monitor. -/
theorem C5_pool_invariants_witness :
    Reachable (mkMonitor 5 0) ∧
    (liveIndices (mkMonitor 5 0)).length ≤ MAX_VEHICLES ∧
    (liveIndices (mkMonitor 5 0)).length + (mkMonitor 5 0).freeList.length
      = MAX_VEHICLES := by
  have hr : Reachable (mkMonitor 5 0) := ⟨5, 0, Relation.ReflTransGen.refl⟩
  exact ⟨hr, (C5_pool_invariants _ hr).1, (C5_pool_invariants _ hr).2.1⟩

set_option maxRecDepth 100000 in
/-- C6: in every reachable state, the global collection is sorted
ascending by identifier; when a vehicle signal creates a record, the new
record is appended AFTER every existing record carrying the same
identifier (ties keep first-observed order); in particular signaling the
same identifier as Bicycle, then Car, then Scooter lists them in that
order in `GetStatistics()`. -/
theorem C6_global_sorted_stable :
    (∀ m, Reachable m →
      List.Sorted (· ≤ ·) (m.alphabeticalList.map (fun i => (m.pool i).id))) ∧
    (∀ m cat id now v rest, Reachable m → m.state = State.Active →
      now < m.nextResetTime → FindVehicle m cat id = none → m.freeList = v :: rest →
      (OnSignalVehicle cat id now m).alphabeticalList.filter
          (fun j => ((OnSignalVehicle cat id now m).pool j).id == id)
        = m.alphabeticalList.filter (fun j => (m.pool j).id == id) ++ [v]) ∧
    GetStatistics (OnSignalVehicle VehicleCategory.Scooter "X" 3
      (OnSignalVehicle VehicleCategory.Car "X" 2
        (OnSignalVehicle VehicleCategory.Bicycle "X" 1 (Start 0 (mkMonitor 100 0)))))
      = ["X - Bicycle (1)", "X - Car (1)", "X - Scooter (1)"] := by
  refine ⟨fun m h => (Reachable_WF h).sorted, ?_, by decide⟩
  intro m cat id now v rest h hA ht hfind hfree
  have hw := Reachable_WF h
  have hvfree : v ∈ m.freeList := by rw [hfree]; simp
  have hvlive : v ∉ liveIndices m := hw.free_disjoint_live v hvfree
  have hvalpha : v ∉ m.alphabeticalList := fun hv => hvlive (hw.alphaPerm.subset hv)
  have heq : OnSignalVehicle cat id now m = vehicleDisposition cat id m := by
    rw [OnSignalVehicle, Check_not_due ht]
  set P := Function.update m.pool v { category := cat, id := id, count := 1 } with hP
  set m1 : Monitor := { m with freeList := rest, pool := P } with hm1
  have hM : OnSignalVehicle cat id now m = InsertVehicle v m1 := by
    rw [heq]
    exact disposition_new hA hfind hfree
  obtain ⟨ip, _, _, _, _, _, _, ialpha⟩ := InsertVehicle_fields v m1
  have hPv : P v = { category := cat, id := id, count := 1 } := by
    rw [hP]; exact Function.update_same _ _ _
  have hPid : (P v).id = id := by rw [hPv]
  have hPother : ∀ j, j ≠ v → P j = m.pool j := by
    intro j hj; rw [hP]; exact Function.update_noteq hj _ _
  have hsortedP : List.Sorted (· ≤ ·) (m.alphabeticalList.map (fun i => (P i).id)) := by
    have hmap : (m.alphabeticalList.map fun j => (P j).id)
        = m.alphabeticalList.map fun j => (m.pool j).id := by
      refine List.map_congr_left ?_
      intro j hj
      exact congrArg Vehicle.id (hPother j (fun hh => hvalpha (hh ▸ hj)))
    rw [hmap]
    exact hw.sorted
  have hfa := insertAlpha_filter_append P v m.alphabeticalList hsortedP
  rw [hPid] at hfa
  rw [hM, ialpha, ip]
  show (insertAlphaSortedList m1.pool v m1.alphabeticalList).filter
      (fun j => ((m1.pool j).id == id)) = _
  have hm1pool : m1.pool = P := rfl
  have hm1alpha : m1.alphabeticalList = m.alphabeticalList := rfl
  rw [hm1pool, hm1alpha, hfa]
  have hcg : (m.alphabeticalList.filter fun j => (P j).id == id)
      = m.alphabeticalList.filter fun j => (m.pool j).id == id := by
    refine List.filter_congr ?_
    intro j hj
    rw [hPother j (fun hh => hvalpha (hh ▸ hj))]
  rw [hcg]

/-- Witness for C6 at a concrete reachable monitor. -/
theorem C6_global_sorted_stable_witness :
    List.Sorted (· ≤ ·)
      ((mkMonitor 5 0).alphabeticalList.map (fun i => ((mkMonitor 5 0).pool i).id)) :=
  C6_global_sorted_stable.1 _ ⟨5, 0, Relation.ReflTransGen.refl⟩

/-- C7: from a reachable `Active` monitor with no record for
`(cat, id)` and a nonempty free list, `n ≥ 1` repetitions of the same
vehicle signal (all before the reset deadline) leave exactly one record
for the pair, and its count is `n`. -/
theorem C7_duplicate_signals (m : Monitor) (cat : VehicleCategory) (id : String)
    (now n : Nat) (h : Reachable m) (hA : m.state = State.Active)
    (ht : now < m.nextResetTime) (h0 : recMatches m cat id = [])
    (hfree : m.freeList ≠ []) (hn : 1 ≤ n) :
    ∃ v, recMatches ((OnSignalVehicle cat id now)^[n] m) cat id = [v] ∧
      (((OnSignalVehicle cat id now)^[n] m).pool v).count = n := by
  obtain ⟨v, rest, hvr⟩ : ∃ v rest, m.freeList = v :: rest := by
    cases hf : m.freeList with
    | nil => exact absurd hf hfree
    | cons a t => exact ⟨a, t, rfl⟩
  have aux : ∀ k (mm : Monitor), WF mm → mm.state = State.Active →
      mm.nextResetTime = m.nextResetTime → recMatches mm cat id = [v] →
      recMatches ((OnSignalVehicle cat id now)^[k] mm) cat id = [v] ∧
      (((OnSignalVehicle cat id now)^[k] mm).pool v).count = (mm.pool v).count + k := by
    intro k
    induction k with
    | zero =>
      intro mm _ _ _ h4
      rw [Function.iterate_zero_apply]
      exact ⟨h4, rfl⟩
    | succ k ih =>
      intro mm h1 h2 h3 h4
      rw [Function.iterate_succ_apply]
      obtain ⟨w1, w2, w3, w4, w5⟩ :=
        signal_existing_matches h1 h2 (by rw [h3]; exact ht) h4
      have hrec := ih (OnSignalVehicle cat id now mm) w1 w2 (by rw [w3, h3]) w4
      refine ⟨hrec.1, ?_⟩
      rw [hrec.2, w5]
      omega
  cases n with
  | zero => omega
  | succ k =>
    rw [Function.iterate_succ_apply]
    obtain ⟨s1, s2, s3, s4, s5⟩ := signal_new_matches (Reachable_WF h) hA ht h0 hvr
    have hrec := aux k (OnSignalVehicle cat id now m) s1 s2 s3 s4
    exact ⟨v, hrec.1, by rw [hrec.2, s5]; omega⟩

set_option maxRecDepth 100000 in
/-- Witness for C7: two signals of Car "A" on a freshly started monitor. -/
theorem C7_duplicate_signals_witness :
    (Start 0 (mkMonitor 100 0)).state = State.Active ∧
    (1 : Nat) < (Start 0 (mkMonitor 100 0)).nextResetTime ∧
    recMatches (Start 0 (mkMonitor 100 0)) VehicleCategory.Car "A" = [] ∧
    (Start 0 (mkMonitor 100 0)).freeList ≠ [] ∧
    (1 : Nat) ≤ 2 ∧
    (∃ v, recMatches ((OnSignalVehicle VehicleCategory.Car "A" 1)^[2]
          (Start 0 (mkMonitor 100 0))) VehicleCategory.Car "A" = [v] ∧
        (((OnSignalVehicle VehicleCategory.Car "A" 1)^[2]
          (Start 0 (mkMonitor 100 0))).pool v).count = 2) :=
  ⟨by decide, by decide, by decide, by decide, by decide,
    C7_duplicate_signals (Start 0 (mkMonitor 100 0)) VehicleCategory.Car "A" 1 2
      ⟨100, 0, Relation.ReflTransGen.single (Step.start 0 (mkMonitor 100 0))⟩
      (by decide) (by decide) (by decide) (by decide) (by decide)⟩

set_option maxRecDepth 100000 in
/-- C10 counterexample: the claim says an accepted empty-identifier
record is placed at the FRONT of the global collection.  After
`Signal(Bicycle, "")`, a `Signal(Car, "")` meets every condition of the
claim (state `Active`, a Free slot, no record for the pair), yet the new
record (slot 1) lands behind the existing empty-identifier record
(slot 0), so the global collection's head is not the new record. -/
theorem C10_empty_id_counterexample :
    FindVehicle (OnSignalVehicle VehicleCategory.Bicycle "" 1 (Start 0 (mkMonitor 100 0)))
      VehicleCategory.Car "" = none ∧
    (OnSignalVehicle VehicleCategory.Bicycle "" 1 (Start 0 (mkMonitor 100 0))).state
      = State.Active ∧
    (OnSignalVehicle VehicleCategory.Bicycle "" 1 (Start 0 (mkMonitor 100 0))).freeList
      ≠ [] ∧
    (OnSignalVehicle VehicleCategory.Car "" 2
        (OnSignalVehicle VehicleCategory.Bicycle "" 1
          (Start 0 (mkMonitor 100 0)))).alphabeticalList = [0, 1] ∧
    ((OnSignalVehicle VehicleCategory.Car "" 2
        (OnSignalVehicle VehicleCategory.Bicycle "" 1
          (Start 0 (mkMonitor 100 0)))).pool 1)
      = { category := VehicleCategory.Car, id := "", count := 1 } ∧
    ((OnSignalVehicle VehicleCategory.Car "" 2
        (OnSignalVehicle VehicleCategory.Bicycle "" 1
          (Start 0 (mkMonitor 100 0)))).pool 0).category = VehicleCategory.Bicycle ∧
    (OnSignalVehicle VehicleCategory.Car "" 2
        (OnSignalVehicle VehicleCategory.Bicycle "" 1
          (Start 0 (mkMonitor 100 0)))).alphabeticalList.head? ≠ some 1 := by
  decide

/-- C10 amended: the signal interface performs no identifier validation:
while `Active` with a Free slot and no record for the pair,
`Signal(cat, "")` creates a record with identifier `""` and count 1,
inserted BEFORE every record with a non-empty identifier (the empty
string compares below every non-empty identifier); it sits at the very
front exactly when no other empty-identifier record is Live. -/
theorem C10_empty_id_amended (m : Monitor) (cat : VehicleCategory) (now v : Nat)
    (rest : List Nat) (h : Reachable m) (hA : m.state = State.Active)
    (ht : now < m.nextResetTime) (hfind : FindVehicle m cat "" = none)
    (hfree : m.freeList = v :: rest) :
    (OnSignalVehicle cat "" now m).pool v
      = { category := cat, id := "", count := 1 } ∧
    (∃ l1 l2, (OnSignalVehicle cat "" now m).alphabeticalList = l1 ++ v :: l2 ∧
      m.alphabeticalList = l1 ++ l2 ∧
      ∀ j ∈ l1, ((OnSignalVehicle cat "" now m).pool j).id = "") ∧
    ((∀ j ∈ m.alphabeticalList, (m.pool j).id ≠ "") →
      (OnSignalVehicle cat "" now m).alphabeticalList.head? = some v) := by
  have hw := Reachable_WF h
  have hvfree : v ∈ m.freeList := by rw [hfree]; simp
  have hvlive : v ∉ liveIndices m := hw.free_disjoint_live v hvfree
  have hvalpha : v ∉ m.alphabeticalList := fun hv => hvlive (hw.alphaPerm.subset hv)
  have heq : OnSignalVehicle cat "" now m = vehicleDisposition cat "" m := by
    rw [OnSignalVehicle, Check_not_due ht]
  set P := Function.update m.pool v { category := cat, id := "", count := 1 } with hP
  set m1 : Monitor := { m with freeList := rest, pool := P } with hm1
  have hM : OnSignalVehicle cat "" now m = InsertVehicle v m1 := by
    rw [heq]
    exact disposition_new hA hfind hfree
  obtain ⟨ip, _, _, _, _, _, _, ialpha⟩ := InsertVehicle_fields v m1
  have hPv : P v = { category := cat, id := "", count := 1 } := by
    rw [hP]; exact Function.update_same _ _ _
  have hPother : ∀ j, j ≠ v → P j = m.pool j := by
    intro j hj; rw [hP]; exact Function.update_noteq hj _ _
  obtain ⟨l1, l2, hsplit, halpha, hval⟩ := insertAlpha_split P v m.alphabeticalList
  have hl1id : ∀ j ∈ l1, (P j).id = "" := by
    intro j hj
    have hnlt := hval j hj
    rw [hPv] at hnlt
    by_contra hne
    exact hnlt ((strLt_empty_iff _).mpr hne)
  have halphaM : (OnSignalVehicle cat "" now m).alphabeticalList = l1 ++ v :: l2 := by
    rw [hM, ialpha]
    show insertAlphaSortedList P v m.alphabeticalList = l1 ++ v :: l2
    exact hsplit
  refine ⟨by rw [hM, ip]; exact hPv, ⟨l1, l2, halphaM, halpha, ?_⟩, ?_⟩
  · intro j hj
    rw [hM, ip]
    exact hl1id j hj
  · intro hnone
    have hl1nil : l1 = [] := by
      cases hl : l1 with
      | nil => rfl
      | cons a t =>
        exfalso
        have ha1 : a ∈ l1 := by rw [hl]; simp
        have hamem : a ∈ m.alphabeticalList := by rw [halpha]; exact List.mem_append_left _ ha1
        have hane : a ≠ v := fun hh => hvalpha (hh ▸ hamem)
        have := hnone a hamem
        apply this
        rw [← hPother a hane]
        exact hl1id a ha1
    rw [halphaM, hl1nil]
    rfl

set_option maxRecDepth 100000 in
/-- Witness for C10 amended: `Signal(Car, "")` on a freshly started
monitor. -/
theorem C10_empty_id_amended_witness :
    (Start 0 (mkMonitor 100 0)).state = State.Active ∧
    (1 : Nat) < (Start 0 (mkMonitor 100 0)).nextResetTime ∧
    FindVehicle (Start 0 (mkMonitor 100 0)) VehicleCategory.Car "" = none ∧
    (Start 0 (mkMonitor 100 0)).freeList = 0 :: (List.range MAX_VEHICLES).tail ∧
    ((OnSignalVehicle VehicleCategory.Car "" 1 (Start 0 (mkMonitor 100 0))).pool 0
        = { category := VehicleCategory.Car, id := "", count := 1 } ∧
      (∃ l1 l2, (OnSignalVehicle VehicleCategory.Car "" 1
            (Start 0 (mkMonitor 100 0))).alphabeticalList = l1 ++ 0 :: l2 ∧
        (Start 0 (mkMonitor 100 0)).alphabeticalList = l1 ++ l2 ∧
        ∀ j ∈ l1, ((OnSignalVehicle VehicleCategory.Car "" 1
            (Start 0 (mkMonitor 100 0))).pool j).id = "") ∧
      ((∀ j ∈ (Start 0 (mkMonitor 100 0)).alphabeticalList,
          ((Start 0 (mkMonitor 100 0)).pool j).id ≠ "") →
        (OnSignalVehicle VehicleCategory.Car "" 1
            (Start 0 (mkMonitor 100 0))).alphabeticalList.head? = some 0)) :=
  ⟨by decide, by decide, by decide, by decide,
    C10_empty_id_amended (Start 0 (mkMonitor 100 0)) VehicleCategory.Car 1 0
      (List.range MAX_VEHICLES).tail
      ⟨100, 0, Relation.ReflTransGen.single (Step.start 0 (mkMonitor 100 0))⟩
      (by decide) (by decide) (by decide) (by decide)⟩

end CTM
